import Mathlib

/-!
Verification development for the coordination plane of the Milvus cluster
(channel manager, compaction planner and inspector, load coordinator with
replica observer, quota center).

Sections whose Go implementation is present in the repository are embedded
directly from the source (`replica_observer.go`, the load jobs, and the
compaction trigger).  Components whose implementation files are absent from
the repository snapshot (the compaction inspector, the channel manager state
machine, and the quota center) are modelled from the specification text; each
such definition carries a doc comment starting with `Modelled from the spec:`.
-/

namespace MilvusCoord

/-! ## Replica observer (source: internal/querycoordv2/observers/replica_observer.go)

The distribution manager is the query-side view of which node holds which
segment or channel.  `checkNodesInReplica` embeds the read-only-node removal
pass of `ReplicaObserver.checkNodesInReplica` (the loop over collections and
replicas at the end of the function); the upstream
`RecoverReplicaOfCollection` call and the channel-exclusive-mode registration
do not touch ro/rw node membership and are not part of the removal decision.
-/

/-- One replica record: id, owning collection, read-only and read-write node
lists (`GetRONodes` / `GetRWNodes`). -/
structure Replica where
  id : Int
  collectionID : Int
  roNodes : List Int
  rwNodes : List Int
deriving Repr, DecidableEq

/-- One distribution-manager row: a channel or segment held by `nodeID` for
`collectionID`. -/
structure DistEntry where
  collectionID : Int
  nodeID : Int
deriving Repr, DecidableEq

/-- The state read by one observer tick: the collection list from meta, the
replicas, and the channel and segment distributions. -/
structure ObserverState where
  collections : List Int
  replicas : List Replica
  channelDist : List DistEntry
  segmentDist : List DistEntry
deriving Repr, DecidableEq

/-- `ChannelDistManager.GetByCollectionAndFilter(collectionID, WithNodeID2Channel(node))`:
channels of the collection currently held by the node. -/
def channelsOf (s : ObserverState) (collectionID nodeID : Int) : List DistEntry :=
  s.channelDist.filter (fun e => e.collectionID = collectionID ∧ e.nodeID = nodeID)

/-- `SegmentDistManager.GetByFilter(WithCollectionID(collectionID), WithNodeID(node))`:
segments of the collection currently held by the node. -/
def segmentsOf (s : ObserverState) (collectionID nodeID : Int) : List DistEntry :=
  s.segmentDist.filter (fun e => e.collectionID = collectionID ∧ e.nodeID = nodeID)

/-- The `removeNodes` computation of `checkNodesInReplica`: the read-only
nodes of the replica whose channel and segment distributions are both empty. -/
def removeNodesOf (s : ObserverState) (r : Replica) : List Int :=
  r.roNodes.filter (fun n =>
    (channelsOf s r.collectionID n).length = 0 ∧ (segmentsOf s r.collectionID n).length = 0)

/-- Per-replica body of the ro-node removal loop: if there are no ro nodes or
no removable nodes the replica is left alone, otherwise `RemoveNode` drops the
removable nodes from the replica. -/
def checkReplica (s : ObserverState) (r : Replica) : Replica :=
  if r.roNodes.length = 0 then r
  else
    let rm := removeNodesOf s r
    if rm.length = 0 then r
    else { r with
      roNodes := r.roNodes.filter (fun n => n ∉ rm),
      rwNodes := r.rwNodes.filter (fun n => n ∉ rm) }

/-- `ReplicaObserver.checkNodesInReplica`, removal pass: for every collection
in meta, for every replica of that collection, remove the drained ro nodes. -/
def checkNodesInReplica (s : ObserverState) : ObserverState :=
  { s with replicas := s.replicas.map (fun r =>
      if r.collectionID ∈ s.collections then checkReplica s r else r) }

theorem checkNodesInReplica_length (s : ObserverState) :
    (checkNodesInReplica s).replicas.length = s.replicas.length := by
  simp [checkNodesInReplica]

theorem checkReplica_not_mem_iff (s : ObserverState) (r : Replica) (n : Int)
    (hro : n ∈ r.roNodes) :
    (n ∉ (checkReplica s r).roNodes ∧ n ∉ (checkReplica s r).rwNodes) ↔
      (channelsOf s r.collectionID n = [] ∧ segmentsOf s r.collectionID n = []) := by
  unfold checkReplica
  by_cases h0 : r.roNodes.length = 0
  · exact absurd (List.length_eq_zero.mp h0 ▸ hro) (List.not_mem_nil n)
  · simp only [if_neg h0]
    by_cases hrm : (removeNodesOf s r).length = 0
    · simp only [if_pos hrm]
      constructor
      · exact fun h => absurd hro h.1
      · rintro ⟨hch, hseg⟩
        exfalso
        have hmem : n ∈ removeNodesOf s r := by
          refine List.mem_filter.mpr ⟨hro, ?_⟩
          simp [hch, hseg]
        rw [List.length_eq_zero.mp hrm] at hmem
        exact (List.not_mem_nil n) hmem
    · simp only [if_neg hrm]
      constructor
      · rintro ⟨hn, -⟩
        have hnrm : n ∈ removeNodesOf s r := by
          by_contra hnot
          exact hn (List.mem_filter.mpr ⟨hro, by simpa using hnot⟩)
        have hcond := (List.mem_filter.mp hnrm).2
        simp only [removeNodesOf, decide_eq_true_eq] at hcond
        exact ⟨List.length_eq_zero.mp hcond.1, List.length_eq_zero.mp hcond.2⟩
      · rintro ⟨hch, hseg⟩
        have hnrm : n ∈ removeNodesOf s r := by
          refine List.mem_filter.mpr ⟨hro, ?_⟩
          simp [hch, hseg]
        constructor
        · intro hmem
          have h2 := (List.mem_filter.mp hmem).2
          simp only [decide_eq_true_eq] at h2
          exact h2 hnrm
        · intro hmem
          have h2 := (List.mem_filter.mp hmem).2
          simp only [decide_eq_true_eq] at h2
          exact h2 hnrm

/-- Claim C3: on a replica-observer tick, a read-only node of a replica is
removed from that replica if and only if the distribution manager shows zero
channels and zero segments for that node in the replica's collection. -/
theorem checkNodesInReplica_removes_ro_node_iff
    (s : ObserverState) (i : ℕ) (hi : i < s.replicas.length)
    (hlen : i < (checkNodesInReplica s).replicas.length) (n : Int)
    (hc : (s.replicas.get ⟨i, hi⟩).collectionID ∈ s.collections)
    (hro : n ∈ (s.replicas.get ⟨i, hi⟩).roNodes) :
    (n ∉ ((checkNodesInReplica s).replicas.get ⟨i, hlen⟩).roNodes ∧
        n ∉ ((checkNodesInReplica s).replicas.get ⟨i, hlen⟩).rwNodes) ↔
      (channelsOf s (s.replicas.get ⟨i, hi⟩).collectionID n = [] ∧
        segmentsOf s (s.replicas.get ⟨i, hi⟩).collectionID n = []) := by
  have hget : (checkNodesInReplica s).replicas.get ⟨i, hlen⟩ =
      checkReplica s (s.replicas.get ⟨i, hi⟩) := by
    simp only [checkNodesInReplica, List.get_eq_getElem, List.getElem_map]
    rw [if_pos]
    exact hc
  rw [hget]
  exact checkReplica_not_mem_iff s (s.replicas.get ⟨i, hi⟩) n hro

/-- A concrete observer state: one collection, one replica with read-only
nodes 5 and 6, where node 5 still holds a channel and node 6 holds nothing. -/
def exampleObs : ObserverState :=
  { collections := [1]
    replicas := [{ id := 1, collectionID := 1, roNodes := [5, 6], rwNodes := [7] }]
    channelDist := [{ collectionID := 1, nodeID := 5 }]
    segmentDist := [] }

theorem checkNodesInReplica_removes_ro_node_iff_witness :
    (6 : Int) ∉ ((checkNodesInReplica exampleObs).replicas.get ⟨0, by decide⟩).roNodes ∧
      (6 : Int) ∉ ((checkNodesInReplica exampleObs).replicas.get ⟨0, by decide⟩).rwNodes :=
  (checkNodesInReplica_removes_ro_node_iff exampleObs 0 (by decide) (by decide) 6
    (by decide) (by decide)).mpr ⟨by decide, by decide⟩

/-! ## Load coordinator jobs (source: querycoordv2 job package, LoadCollectionJob / LoadPartitionJob)

`LoadCollectionJob.PreExecute` and `LoadPartitionJob.PreExecute` share one
body (they differ only in log strings), embedded here as `loadJobPreExecute`.
The broker `DescribeCollection` call is treated as succeeding; its result is
not consulted by the precondition checks.  `Execute` is embedded as
`loadCollectionExecute`; in-memory-only effects (failed-load cache, metrics,
tracing spans) are omitted, and the meta writes are recorded in `ExecLog`.
-/

/-- A load request: `querypb.LoadCollectionRequest` fields used by the jobs. -/
structure LoadRequest where
  collectionID : Int
  replicaNumber : Int
  resourceGroups : List String
deriving Repr, DecidableEq

/-- A stored `CollectionLoadInfo` record. -/
structure LoadedCollection where
  collectionID : Int
  replicaNumber : Int
deriving Repr, DecidableEq

/-- A stored `PartitionLoadInfo` record. -/
structure LoadedPartition where
  collectionID : Int
  partitionID : Int
deriving Repr, DecidableEq

/-- A stored replica record with its resource group. -/
structure ReplicaMeta where
  id : Int
  collectionID : Int
  resourceGroup : String
deriving Repr, DecidableEq

/-- The query-coordinator meta store projection used by the load jobs. -/
structure QCMeta where
  collections : List LoadedCollection
  partitions : List LoadedPartition
  replicas : List ReplicaMeta
  nextReplicaID : Int
deriving Repr, DecidableEq

/-- `meta.DefaultResourceGroupName`. -/
def DefaultResourceGroupName : String := "__default_resource_group"

/-- `meta.GetCollection`: the stored load info of the collection, if any. -/
def getCollection (m : QCMeta) (collectionID : Int) : Option LoadedCollection :=
  m.collections.find? (fun c => c.collectionID = collectionID)

/-- `ReplicaManager.GetResourceGroupByCollection(...).Collect()`: the set of
resource groups used by the replicas of the collection (deduplicated). -/
def resourceGroupsByCollection (m : QCMeta) (collectionID : Int) : List String :=
  ((m.replicas.filter (fun r => r.collectionID = collectionID)).map
    (fun r => r.resourceGroup)).dedup

/-- Errors surfaced by the load jobs; `merr.WrapErrParameterInvalid`. -/
inductive JobError where
  | parameterInvalid (msg : String)
deriving Repr, DecidableEq

/-- The request normalization performed at the top of `PreExecute`: a
non-positive replica number becomes 1, an empty resource-group list becomes
the default resource group. -/
def normalizeRequest (req : LoadRequest) : LoadRequest :=
  let req1 := if req.replicaNumber ≤ 0 then { req with replicaNumber := 1 } else req
  if req1.resourceGroups.isEmpty then
    { req1 with resourceGroups := [DefaultResourceGroupName] } else req1

/-- `LoadCollectionJob.PreExecute` / `LoadPartitionJob.PreExecute`: normalize
the request in place, then reject when the collection is already loaded with a
different replica number, or when `lo.Difference` of the currently used
resource groups and the requested ones is non-empty in either direction.
On success the (normalized) request is returned, as the Go code mutates
`job.req` in place. -/
def loadJobPreExecute (req : LoadRequest) (m : QCMeta) : Except JobError LoadRequest :=
  let r := normalizeRequest req
  match getCollection m r.collectionID with
  | none => .ok r
  | some coll =>
    if coll.replicaNumber ≠ r.replicaNumber then
      .error (.parameterInvalid "cannot change the replica number for loaded collection")
    else
      let used := resourceGroupsByCollection m r.collectionID
      let left := used.filter (fun g => g ∉ r.resourceGroups)
      let right := r.resourceGroups.filter (fun g => g ∉ used)
      if left.length > 0 ∨ right.length > 0 then
        .error (.parameterInvalid "cannot change the resource groups for loaded collection")
      else .ok r

/-- Record of which meta-writing actions an `Execute` run performed. -/
structure ExecLog where
  replicasCreated : Bool
  wroteMeta : Bool
  registeredLoad : Bool
deriving Repr, DecidableEq

/-- `ReplicaManager.RemoveCollection`: drop every replica of the collection. -/
def removeCollectionReplicas (m : QCMeta) (collectionID : Int) : QCMeta :=
  { m with replicas := m.replicas.filter (fun r => ¬ r.collectionID = collectionID) }

/-- Modelled from the spec: `utils.SpawnReplicasWithRG` (implementation not in
this snapshot) spawns `replicaNumber` empty replicas for the collection across
the requested resource groups, as balanced as possible. -/
def spawnReplicasWithRG (m : QCMeta) (req : LoadRequest) : QCMeta :=
  let k := req.resourceGroups.length
  let fresh := (List.range req.replicaNumber.toNat).map (fun i =>
    { id := m.nextReplicaID + Int.ofNat i, collectionID := req.collectionID,
      resourceGroup := req.resourceGroups.getD (i % k) DefaultResourceGroupName : ReplicaMeta })
  { m with replicas := m.replicas ++ fresh,
           nextReplicaID := m.nextReplicaID + req.replicaNumber }

/-- `CollectionManager.PutCollection(collection, partitions...)`: store the
collection load info (upserting) and append the partition records. -/
def putCollection (m : QCMeta) (req : LoadRequest) (lackPartitionIDs : List Int) : QCMeta :=
  let colls :=
    if (getCollection m req.collectionID).isSome then
      m.collections.map (fun c =>
        if c.collectionID = req.collectionID then
          { c with replicaNumber := req.replicaNumber } else c)
    else
      m.collections ++ [{ collectionID := req.collectionID,
                          replicaNumber := req.replicaNumber }]
  { m with collections := colls,
           partitions := m.partitions ++ lackPartitionIDs.map
             (fun p => { collectionID := req.collectionID, partitionID := p }) }

/-- `loadedPartitionIDs` of `Execute`: the partition ids already stored for
the collection. -/
def loadedPartitionIDs (collectionID : Int) (parts : List LoadedPartition) : List Int :=
  (parts.filter (fun p => p.collectionID = collectionID)).map (fun p => p.partitionID)

/-- The `lackPartitionIDs` computation of `LoadCollectionJob.Execute`: target
partitions (from the broker) minus the ones already loaded in meta. -/
def lackingPartitions (collectionID : Int) (partitionIDs : List Int) (m : QCMeta) : List Int :=
  partitionIDs.filter (fun p => p ∉ loadedPartitionIDs collectionID m.partitions)

/-- `LoadCollectionJob.Execute`: compute the lacking partitions (returning at
once when none), clear stale replicas when the collection meta is absent,
spawn replicas when the collection has none, write the collection and
partition records with status Loading, and register the load with the target
and collection observers.  `partitionIDs` is the broker `GetPartitions`
result. -/
def loadCollectionExecute (req : LoadRequest) (partitionIDs : List Int) (m : QCMeta) :
    QCMeta × ExecLog :=
  let lack := lackingPartitions req.collectionID partitionIDs m
  if lack.isEmpty then (m, { replicasCreated := false, wroteMeta := false,
                             registeredLoad := false })
  else
    let colExisted := (getCollection m req.collectionID).isSome
    let m1 := if colExisted then m else removeCollectionReplicas m req.collectionID
    let hasReplicas := (m1.replicas.filter
      (fun r => r.collectionID = req.collectionID)).isEmpty = false
    let m2 := if hasReplicas then m1 else spawnReplicasWithRG m1 req
    let m3 := putCollection m2 req lack
    (m3, { replicasCreated := ¬ hasReplicas, wroteMeta := true, registeredLoad := true })

/-- The whole job run: `PreExecute` then, on success, `Execute` with the
(normalized, in-place mutated) request. -/
def loadCollectionJobRun (req : LoadRequest) (partitionIDs : List Int) (m : QCMeta) :
    Except JobError (QCMeta × ExecLog) :=
  match loadJobPreExecute req m with
  | .error e => .error e
  | .ok r => .ok (loadCollectionExecute r partitionIDs m)

theorem removeCollectionReplicas_partitions (m : QCMeta) (cid : Int) :
    (removeCollectionReplicas m cid).partitions = m.partitions := rfl

theorem spawnReplicasWithRG_partitions (m : QCMeta) (req : LoadRequest) :
    (spawnReplicasWithRG m req).partitions = m.partitions := rfl

theorem putCollection_partitions (m : QCMeta) (req : LoadRequest) (lack : List Int) :
    (putCollection m req lack).partitions =
      m.partitions ++ lack.map
        (fun p => { collectionID := req.collectionID, partitionID := p }) := rfl

theorem loadCollectionExecute_partitions (req : LoadRequest) (pids : List Int) (m : QCMeta) :
    (loadCollectionExecute req pids m).1.partitions =
      m.partitions ++ (lackingPartitions req.collectionID pids m).map
        (fun p => { collectionID := req.collectionID, partitionID := p }) := by
  unfold loadCollectionExecute
  by_cases h : (lackingPartitions req.collectionID pids m).isEmpty
  · simp [h, List.isEmpty_iff.mp h]
  · simp only [h, Bool.false_eq_true, if_false, putCollection_partitions,
      apply_ite QCMeta.partitions, spawnReplicasWithRG_partitions,
      removeCollectionReplicas_partitions, ite_self]

theorem loadedPartitionIDs_append (cid : Int) (xs ys : List LoadedPartition) :
    loadedPartitionIDs cid (xs ++ ys) =
      loadedPartitionIDs cid xs ++ loadedPartitionIDs cid ys := by
  simp [loadedPartitionIDs, List.filter_append]

theorem loadedPartitionIDs_tagged (cid : Int) (lack : List Int) :
    loadedPartitionIDs cid
      (lack.map (fun p => { collectionID := cid, partitionID := p })) = lack := by
  induction lack with
  | nil => rfl
  | cons a l ih =>
    simpa [loadedPartitionIDs] using ih

/-- Claim C8: executing a load job twice with identical arguments produces
the same meta state as executing it once.  After one execution the computed
set of lacking partitions of a second, identical execution is empty, and the
second execution leaves meta untouched, creating no replicas, writing no
collection or partition record and re-registering nothing. -/
theorem loadCollectionExecute_idempotent (req : LoadRequest) (pids : List Int) (m : QCMeta) :
    lackingPartitions req.collectionID pids (loadCollectionExecute req pids m).1 = [] ∧
      loadCollectionExecute req pids (loadCollectionExecute req pids m).1 =
        ((loadCollectionExecute req pids m).1,
          { replicasCreated := false, wroteMeta := false, registeredLoad := false }) := by
  have hlack : lackingPartitions req.collectionID pids (loadCollectionExecute req pids m).1
      = [] := by
    unfold lackingPartitions
    rw [List.filter_eq_nil_iff]
    intro p hp
    simp only [decide_eq_true_eq, not_not]
    rw [loadCollectionExecute_partitions, loadedPartitionIDs_append,
      loadedPartitionIDs_tagged]
    by_cases hl : p ∈ loadedPartitionIDs req.collectionID m.partitions
    · exact List.mem_append_left _ hl
    · refine List.mem_append_right _ ?_
      unfold lackingPartitions
      exact List.mem_filter.mpr ⟨hp, by simpa using hl⟩
  refine ⟨hlack, ?_⟩
  conv_lhs => rw [loadCollectionExecute]
  rw [hlack]
  rfl

/-- Claim C7: against an already-loaded collection, `PreExecute` returns a
`ParameterInvalid` error exactly when the request (whose fields were
normalized in place) carries a replica number different from the stored one
or a resource-group set different from the groups used by the collection's
replicas; otherwise it succeeds.  `PreExecute` takes meta read-only, so meta
is unchanged on rejection by construction. -/
theorem loadJobPreExecute_rejects_iff (req : LoadRequest) (m : QCMeta) :
    (∃ msg, loadJobPreExecute req m = .error (.parameterInvalid msg)) ↔
      (∃ coll, getCollection m (normalizeRequest req).collectionID = some coll ∧
        (coll.replicaNumber ≠ (normalizeRequest req).replicaNumber ∨
          ¬ (resourceGroupsByCollection m (normalizeRequest req).collectionID ⊆
                (normalizeRequest req).resourceGroups ∧
             (normalizeRequest req).resourceGroups ⊆
                resourceGroupsByCollection m (normalizeRequest req).collectionID))) := by
  unfold loadJobPreExecute
  cases hcoll : getCollection m (normalizeRequest req).collectionID with
  | none => simp [hcoll]
  | some coll =>
    simp only [hcoll]
    by_cases hrep : coll.replicaNumber ≠ (normalizeRequest req).replicaNumber
    · simp only [if_pos hrep]
      constructor
      · exact fun _ => ⟨coll, rfl, Or.inl hrep⟩
      · exact fun _ => ⟨"cannot change the replica number for loaded collection", rfl⟩
    · simp only [if_neg hrep]
      push_neg at hrep
      by_cases hrg :
          ((resourceGroupsByCollection m (normalizeRequest req).collectionID).filter
              (fun g => g ∉ (normalizeRequest req).resourceGroups)).length > 0 ∨
            (((normalizeRequest req).resourceGroups.filter
              (fun g => g ∉ resourceGroupsByCollection m
                  (normalizeRequest req).collectionID))).length > 0
      · simp only [if_pos hrg]
        constructor
        · intro _
          refine ⟨coll, rfl, Or.inr ?_⟩
          rintro ⟨hsub1, hsub2⟩
          rcases hrg with h | h
          · obtain ⟨g, hg⟩ := List.length_pos_iff_exists_mem.mp h
            obtain ⟨hgu, hgp⟩ := List.mem_filter.mp hg
            simp only [decide_eq_true_eq] at hgp
            exact hgp (hsub1 hgu)
          · obtain ⟨g, hg⟩ := List.length_pos_iff_exists_mem.mp h
            obtain ⟨hgu, hgp⟩ := List.mem_filter.mp hg
            simp only [decide_eq_true_eq] at hgp
            exact hgp (hsub2 hgu)
        · exact fun _ => ⟨"cannot change the resource groups for loaded collection", rfl⟩
      · simp only [if_neg hrg]
        constructor
        · rintro ⟨msg, hmsg⟩
          exact Except.noConfusion hmsg
        · rintro ⟨coll2, hc2, hbad⟩
          obtain rfl : coll = coll2 := by
            injection hc2
          exfalso
          rcases hbad with h | h
          · exact h hrep
          · apply h
            push_neg at hrg
            obtain ⟨h1, h2⟩ := hrg
            constructor
            · intro g hg
              by_contra hgn
              have hmem : g ∈ (resourceGroupsByCollection m
                  (normalizeRequest req).collectionID).filter
                    (fun g => g ∉ (normalizeRequest req).resourceGroups) :=
                List.mem_filter.mpr ⟨hg, by simpa using hgn⟩
              have hpos := List.length_pos_iff_exists_mem.mpr ⟨g, hmem⟩
              omega
            · intro g hg
              by_contra hgn
              have hmem : g ∈ ((normalizeRequest req).resourceGroups.filter
                  (fun g => g ∉ resourceGroupsByCollection m
                      (normalizeRequest req).collectionID)) :=
                List.mem_filter.mpr ⟨hg, by simpa using hgn⟩
              have hpos := List.length_pos_iff_exists_mem.mpr ⟨g, hmem⟩
              omega

/-- A loaded-collection meta state used as a concrete witness input:
collection 9 loaded with 2 replicas in resource group rg1. -/
def exampleLoadMeta : QCMeta :=
  { collections := [{ collectionID := 9, replicaNumber := 2 }]
    partitions := []
    replicas := [{ id := 1, collectionID := 9, resourceGroup := "rg1" },
                 { id := 2, collectionID := 9, resourceGroup := "rg1" }]
    nextReplicaID := 3 }

theorem loadJobPreExecute_rejects_iff_witness :
    ∃ msg, loadJobPreExecute
        { collectionID := 9, replicaNumber := 3, resourceGroups := ["rg1"] }
        exampleLoadMeta = .error (.parameterInvalid msg) :=
  (loadJobPreExecute_rejects_iff
      { collectionID := 9, replicaNumber := 3, resourceGroups := ["rg1"] }
      exampleLoadMeta).mpr
    ⟨{ collectionID := 9, replicaNumber := 2 }, by decide, Or.inl (by decide)⟩

/-- The matching load request for collection 9 in `exampleLoadMeta`. -/
def exampleLoadReq : LoadRequest :=
  { collectionID := 9, replicaNumber := 2, resourceGroups := ["rg1"] }

theorem loadCollectionExecute_idempotent_witness :
    loadCollectionExecute exampleLoadReq [100, 101]
        (loadCollectionExecute exampleLoadReq [100, 101] exampleLoadMeta).1 =
      ((loadCollectionExecute exampleLoadReq [100, 101] exampleLoadMeta).1,
        { replicasCreated := false, wroteMeta := false, registeredLoad := false }) :=
  (loadCollectionExecute_idempotent exampleLoadReq [100, 101] exampleLoadMeta).2

theorem normalizeRequest_eq (req : LoadRequest) :
    normalizeRequest req =
      { collectionID := req.collectionID
        replicaNumber := if req.replicaNumber ≤ 0 then 1 else req.replicaNumber
        resourceGroups := if req.resourceGroups.isEmpty then [DefaultResourceGroupName]
          else req.resourceGroups } := by
  unfold normalizeRequest
  by_cases h1 : req.replicaNumber ≤ 0 <;> by_cases h2 : req.resourceGroups.isEmpty <;>
    simp [h1, h2]

theorem normalizeRequest_idem (req : LoadRequest) :
    normalizeRequest (normalizeRequest req) = normalizeRequest req := by
  rw [normalizeRequest_eq req, normalizeRequest_eq]
  by_cases h1 : req.replicaNumber ≤ 0 <;> by_cases h2 : req.resourceGroups.isEmpty <;>
    simp [h1, h2]

/-- Claim C10: `PreExecute` normalizes the request before any precondition
check — a non-positive replica number becomes 1 and an empty resource-group
list becomes the default resource group — and the checks and the subsequent
`Execute` (replica spawning included) operate on the normalized values. -/
theorem loadJobPreExecute_normalizes (req : LoadRequest) (m : QCMeta) :
    loadJobPreExecute req m = loadJobPreExecute (normalizeRequest req) m ∧
      (∀ r, loadJobPreExecute req m = .ok r → r = normalizeRequest req) ∧
      0 < (normalizeRequest req).replicaNumber ∧
      (normalizeRequest req).resourceGroups ≠ [] ∧
      (req.replicaNumber ≤ 0 → (normalizeRequest req).replicaNumber = 1) ∧
      (0 < req.replicaNumber → (normalizeRequest req).replicaNumber = req.replicaNumber) ∧
      (req.resourceGroups = [] →
        (normalizeRequest req).resourceGroups = [DefaultResourceGroupName]) ∧
      (req.resourceGroups ≠ [] →
        (normalizeRequest req).resourceGroups = req.resourceGroups) ∧
      (∀ pids, loadCollectionJobRun req pids m =
        loadCollectionJobRun (normalizeRequest req) pids m) := by
  have hpre : loadJobPreExecute req m = loadJobPreExecute (normalizeRequest req) m := by
    unfold loadJobPreExecute
    rw [normalizeRequest_idem]
  refine ⟨hpre, ?_, ?_, ?_, ?_, ?_, ?_, ?_, ?_⟩
  · intro r hok
    unfold loadJobPreExecute at hok
    cases hcoll : getCollection m (normalizeRequest req).collectionID with
    | none =>
      simp only [hcoll] at hok
      injection hok with h
      exact h.symm
    | some coll =>
      simp only [hcoll] at hok
      split_ifs at hok
      all_goals
        first
        | exact Except.noConfusion hok
        | (injection hok with h; exact h.symm)
  · rw [normalizeRequest_eq]
    by_cases h1 : req.replicaNumber ≤ 0 <;> simp [h1]
    omega
  · rw [normalizeRequest_eq]
    by_cases h2 : req.resourceGroups.isEmpty <;> simp [h2]
    simpa [List.isEmpty_iff] using h2
  · intro h1
    rw [normalizeRequest_eq]
    simp [h1]
  · intro h1
    rw [normalizeRequest_eq]
    have : ¬ req.replicaNumber ≤ 0 := by omega
    simp [this]
  · intro h2
    rw [normalizeRequest_eq]
    simp [h2]
  · intro h2
    rw [normalizeRequest_eq]
    simp [List.isEmpty_iff, h2]
  · intro pids
    unfold loadCollectionJobRun
    rw [hpre]

theorem loadJobPreExecute_normalizes_witness :
    (normalizeRequest { collectionID := 9, replicaNumber := 0, resourceGroups := [] }
      ).replicaNumber = 1 ∧
      (normalizeRequest { collectionID := 9, replicaNumber := 0, resourceGroups := [] }
        ).resourceGroups = [DefaultResourceGroupName] := by
  have h := loadJobPreExecute_normalizes
    { collectionID := 9, replicaNumber := 0, resourceGroups := [] }
    { collections := [], partitions := [], replicas := [], nextReplicaID := 0 }
  exact ⟨h.2.2.2.2.1 (by decide), h.2.2.2.2.2.2.1 rfl⟩

/-! ## Compaction inspector and trigger

The inspector implementation (`compactionInspector.submitTask` / `schedule`)
is not in this repository snapshot — only its test suite is — so the queue
and the scheduling pass are modelled from the specification (§4.2 scheduling
rule, back-pressure rule) and constrained by the expectations of
`TestScheduleNodeWithL0Executing` and `TestCompactionQueueFull`.  The trigger
loop `handleGlobalSignal` is embedded from the `compactionTrigger` source that
is present in the snapshot.
-/

/-- Compaction task variants of the data model. -/
inductive CompactionVariant where
  | mix
  | level0
  | clustering
deriving Repr, DecidableEq

/-- The fields of a `datapb.CompactionTask` that scheduling consults. -/
structure CompactionTaskRec where
  planID : Int
  ctype : CompactionVariant
  channel : String
deriving Repr, DecidableEq

/-- The inspector state: the bounded pending queue (kept in plan-id priority
order, the order of `DefaultPrioritizer`), the executing set, and the
configured `taskQueueCapacity`. -/
structure Inspector where
  queueTasks : List CompactionTaskRec
  executingTasks : List CompactionTaskRec
  taskQueueCapacity : ℕ
deriving Repr, DecidableEq

/-- Insert a task into the pending queue keeping ascending plan-id order. -/
def insertByPlanID : List CompactionTaskRec → CompactionTaskRec → List CompactionTaskRec
  | [], t => [t]
  | x :: xs, t => if t.planID < x.planID then t :: x :: xs else x :: insertByPlanID xs t

/-- Modelled from the spec: the per-worker queue bound `taskQueueCapacity`
causes `submitTask` to fail with back-pressure when the pending queue is
already at capacity; otherwise the task is queued. -/
def submitTask (i : Inspector) (t : CompactionTaskRec) : Except String Inspector :=
  if i.taskQueueCapacity ≤ i.queueTasks.length then
    .error "compaction queue is full"
  else
    .ok { i with queueTasks := insertByPlanID i.queueTasks t }

/-- Channels of executing Level0DeleteCompaction tasks. -/
def l0ExecutingChannels (i : Inspector) : List String :=
  (i.executingTasks.filter (fun t => t.ctype = .level0)).map (fun t => t.channel)

/-- Channels of executing non-L0 (mix / clustering) tasks. -/
def otherExecutingChannels (i : Inspector) : List String :=
  (i.executingTasks.filter (fun t => ¬ t.ctype = .level0)).map (fun t => t.channel)

/-- Modelled from the spec: one scheduling pass over the pending queue.  An
L0 task is held back while a non-L0 task runs on its channel, and a mix or
clustering task is held back while an L0 task is executing — or was selected
earlier in the same pass — on its channel; tasks on other channels are
independent.  Returns (selected, still-pending). -/
def scheduleLoop : List CompactionTaskRec → List String → List String →
    List CompactionTaskRec × List CompactionTaskRec
  | [], _, _ => ([], [])
  | t :: rest, l0Ex, mixEx =>
    if t.ctype = .level0 then
      if t.channel ∈ mixEx then
        let r := scheduleLoop rest l0Ex mixEx
        (r.1, t :: r.2)
      else
        let r := scheduleLoop rest (t.channel :: l0Ex) mixEx
        (t :: r.1, r.2)
    else
      if t.channel ∈ l0Ex then
        let r := scheduleLoop rest l0Ex mixEx
        (r.1, t :: r.2)
      else
        let r := scheduleLoop rest l0Ex (t.channel :: mixEx)
        (t :: r.1, r.2)

/-- Modelled from the spec: `compactionInspector.schedule` selects runnable
pending tasks under the intra-channel L0 exclusivity rule and moves them to
the executing set. -/
def schedule (i : Inspector) : List CompactionTaskRec × Inspector :=
  let r := scheduleLoop i.queueTasks (l0ExecutingChannels i) (otherExecutingChannels i)
  (r.1, { i with queueTasks := r.2, executingTasks := i.executingTasks ++ r.1 })

theorem scheduleLoop_l0_avoids_mixEx :
    ∀ (queue : List CompactionTaskRec) (l0Ex mixEx : List String) (e : CompactionTaskRec),
      e ∈ (scheduleLoop queue l0Ex mixEx).1 → e.ctype = .level0 → e.channel ∉ mixEx := by
  intro queue
  induction queue with
  | nil => intro l0Ex mixEx e he _; exact absurd he (List.not_mem_nil e)
  | cons t rest ih =>
    intro l0Ex mixEx e he hl0
    by_cases h1 : t.ctype = .level0
    · by_cases h2 : t.channel ∈ mixEx
      · rw [scheduleLoop, if_pos h1, if_pos h2] at he
        exact ih l0Ex mixEx e he hl0
      · rw [scheduleLoop, if_pos h1, if_neg h2] at he
        rcases List.mem_cons.mp he with rfl | he2
        · exact h2
        · exact ih (t.channel :: l0Ex) mixEx e he2 hl0
    · by_cases h2 : t.channel ∈ l0Ex
      · rw [scheduleLoop, if_neg h1, if_pos h2] at he
        exact ih l0Ex mixEx e he hl0
      · rw [scheduleLoop, if_neg h1, if_neg h2] at he
        rcases List.mem_cons.mp he with rfl | he2
        · exact absurd hl0 h1
        · intro hmem
          exact ih l0Ex (t.channel :: mixEx) e he2 hl0 (List.mem_cons_of_mem _ hmem)

theorem scheduleLoop_mix_safe :
    ∀ (queue : List CompactionTaskRec) (l0Ex mixEx : List String) (t : CompactionTaskRec),
      t ∈ (scheduleLoop queue l0Ex mixEx).1 → ¬ t.ctype = .level0 →
        t.channel ∉ l0Ex ∧
          ∀ e ∈ (scheduleLoop queue l0Ex mixEx).1, e.ctype = .level0 →
            e.channel ≠ t.channel := by
  intro queue
  induction queue with
  | nil => intro l0Ex mixEx t ht _; exact absurd ht (List.not_mem_nil t)
  | cons u rest ih =>
    intro l0Ex mixEx t ht hmix
    by_cases h1 : u.ctype = .level0
    · by_cases h2 : u.channel ∈ mixEx
      · rw [scheduleLoop, if_pos h1, if_pos h2] at ht ⊢
        exact ih l0Ex mixEx t ht hmix
      · rw [scheduleLoop, if_pos h1, if_neg h2] at ht ⊢
        have ht2 : t ∈ (scheduleLoop rest (u.channel :: l0Ex) mixEx).1 := by
          rcases List.mem_cons.mp ht with rfl | h
          · exact absurd h1 hmix
          · exact h
        obtain ⟨hnot, hall⟩ := ih (u.channel :: l0Ex) mixEx t ht2 hmix
        refine ⟨fun hmem => hnot (List.mem_cons_of_mem _ hmem), ?_⟩
        intro e he hel0
        rcases List.mem_cons.mp he with rfl | he2
        · intro heq
          exact hnot (heq ▸ List.mem_cons_self _ _)
        · exact hall e he2 hel0
    · by_cases h2 : u.channel ∈ l0Ex
      · rw [scheduleLoop, if_neg h1, if_pos h2] at ht ⊢
        exact ih l0Ex mixEx t ht hmix
      · rw [scheduleLoop, if_neg h1, if_neg h2] at ht ⊢
        rcases List.mem_cons.mp ht with rfl | ht2
        · refine ⟨h2, ?_⟩
          intro e he hel0
          rcases List.mem_cons.mp he with rfl | he2
          · exact absurd hel0 h1
          · have := scheduleLoop_l0_avoids_mixEx rest l0Ex (t.channel :: mixEx) e he2 hel0
            intro heq
            exact this (heq ▸ List.mem_cons_self _ _)
        · obtain ⟨hnot, hall⟩ := ih l0Ex (u.channel :: mixEx) t ht2 hmix
          refine ⟨hnot, ?_⟩
          intro e he hel0
          rcases List.mem_cons.mp he with rfl | he2
          · exact absurd hel0 h1
          · exact hall e he2 hel0

/-- An inspector with empty queue and default capacity. -/
def emptyInspector : Inspector :=
  { queueTasks := [], executingTasks := [], taskQueueCapacity := 256 }

/-- Submit, keeping the old state on back-pressure (as the trigger does). -/
def submitOrKeep (i : Inspector) (t : CompactionTaskRec) : Inspector :=
  match submitTask i t with
  | .ok j => j
  | .error _ => i

/-- The queued tasks of the literal scenario: planId 10 L0 on ch-11,
planId 11 MixCompaction on ch-11, planId 13 MixCompaction on ch-3. -/
def exampleInspector : Inspector :=
  submitOrKeep (submitOrKeep (submitOrKeep emptyInspector
    { planID := 10, ctype := .level0, channel := "ch-11" })
    { planID := 11, ctype := .mix, channel := "ch-11" })
    { planID := 13, ctype := .mix, channel := "ch-3" }

/-- Claim C1: a scheduling pass never selects a MixCompaction task on a
channel on which an L0DeleteCompaction task is executing, or was selected in
the same pass; and on the queued tasks {10 L0 ch-11, 11 Mix ch-11,
13 Mix ch-3} `schedule()` returns exactly plan ids [10, 13]. -/
theorem schedule_no_mix_on_l0_channel :
    (∀ (i : Inspector) (t : CompactionTaskRec),
        t ∈ (schedule i).1 → t.ctype = .mix →
          (∀ e ∈ i.executingTasks, e.ctype = .level0 → e.channel ≠ t.channel) ∧
            (∀ e ∈ (schedule i).1, e.ctype = .level0 → e.channel ≠ t.channel)) ∧
      (schedule exampleInspector).1.map (fun t => t.planID) = [10, 13] := by
  constructor
  · intro i t ht hmix
    have hmix2 : ¬ t.ctype = .level0 := by rw [hmix]; intro h; exact CompactionVariant.noConfusion h
    have hsafe := scheduleLoop_mix_safe i.queueTasks (l0ExecutingChannels i)
      (otherExecutingChannels i) t ht hmix2
    constructor
    · intro e he hel0 heq
      apply hsafe.1
      rw [← heq]
      exact List.mem_map.mpr ⟨e, List.mem_filter.mpr ⟨he, by simp [hel0]⟩, rfl⟩
    · exact hsafe.2
  · decide

theorem schedule_no_mix_on_l0_channel_witness :
    (schedule exampleInspector).1.map (fun t => t.planID) = [10, 13] ∧
      ("ch-11" : String) ≠ "ch-3" := by
  have h := schedule_no_mix_on_l0_channel
  refine ⟨h.2, ?_⟩
  exact (h.1 exampleInspector { planID := 13, ctype := .mix, channel := "ch-3" }
    (by decide) rfl).2 { planID := 10, ctype := .level0, channel := "ch-11" } (by decide) rfl

/-- A generated compaction plan candidate as produced by `generatePlans`:
total rows with the input segment ids. -/
def PlanCand : Type := Int × List Int

instance : DecidableEq PlanCand := by
  unfold PlanCand
  infer_instance

/-- Inner plan loop of `compactionTrigger.handleGlobalSignal` (embedded from
source): each plan is enqueued unless a non-forced signal finds the handler
full (break), and an `enqueueCompaction` failure skips the plan (continue).
`enqOk` stands for the outcome of `enqueueCompaction`; id allocation is
abstracted as succeeding. -/
def enqueuePlansLoop (isForce isFull : Bool) (enqOk : PlanCand → Bool) :
    List PlanCand → List PlanCand
  | [] => []
  | p :: ps =>
    if ¬ isForce ∧ isFull then []
    else if enqOk p then p :: enqueuePlansLoop isForce isFull enqOk ps
    else enqueuePlansLoop isForce isFull enqOk ps

/-- Outer loop of `compactionTrigger.handleGlobalSignal` (embedded from
source): iterate the channel-partition groups, breaking out — with no error —
as soon as a non-forced signal finds the compaction handler full; each group
carries the plans `generatePlans` produced for it.  Collection lookup and
compact-time computation are abstracted as succeeding. -/
def handleGlobalSignal (isForce isFull : Bool) (enqOk : PlanCand → Bool) :
    List (List PlanCand) → Except String (List PlanCand)
  | [] => .ok []
  | g :: gs =>
    if ¬ isForce ∧ isFull then .ok []
    else
      match handleGlobalSignal isForce isFull enqOk gs with
      | .error e => .error e
      | .ok rest => .ok (enqueuePlansLoop isForce isFull enqOk g ++ rest)

/-- Claim C9: `submitTask` fails whenever the pending queue already holds
`taskQueueCapacity` tasks, and a non-forced trigger pass that finds the
compaction handler full enqueues no plan for that tick and surfaces no
error. -/
theorem submitTask_full_and_trigger_skip :
    (∀ (i : Inspector) (t : CompactionTaskRec),
        i.taskQueueCapacity ≤ i.queueTasks.length →
          ∃ msg, submitTask i t = .error msg) ∧
      (∀ (enqOk : PlanCand → Bool) (groups : List (List PlanCand)),
        handleGlobalSignal false true enqOk groups = .ok []) := by
  constructor
  · intro i t h
    exact ⟨"compaction queue is full", by rw [submitTask, if_pos h]⟩
  · intro enqOk groups
    cases groups with
    | nil => rfl
    | cons g gs => rw [handleGlobalSignal, if_pos (by simp)]

/-- An inspector whose queue is at its capacity of one task. -/
def fullInspector : Inspector :=
  { queueTasks := [{ planID := 1, ctype := .mix, channel := "ch-01" }]
    executingTasks := [], taskQueueCapacity := 1 }

theorem submitTask_full_and_trigger_skip_witness :
    (∃ msg, submitTask fullInspector
        { planID := 2, ctype := .mix, channel := "ch-01" } = .error msg) ∧
      handleGlobalSignal false true (fun _ => true) [[((5 : Int), [1, 2])]] = .ok [] := by
  have h := submitTask_full_and_trigger_skip
  exact ⟨h.1 fullInspector { planID := 2, ctype := .mix, channel := "ch-01" } (by decide),
    h.2 (fun _ => true) [[((5 : Int), [1, 2])]]⟩

/-! ## Channel manager state machine

The `ChannelManagerImpl` implementation is not in this snapshot — only its
test suite is — so the per-channel state machine of §4.1 is modelled from the
specification and constrained by `TestAdvanceChannelState`.  RPC outcomes
(`NotifyChannelOperation`, `CheckChannelOperationProgress`) are passed in as
explicit values since they come from the ingest worker.
-/

/-- The channel states of the §4.1 state machine. -/
inductive ChannelState where
  | standby
  | toWatch
  | watching
  | watched
  | toRelease
  | releasing
  | legacy
deriving Repr, DecidableEq

/-- One `StateChannel`: current state, assigned node and the current
watch-operation id of its stored watch info. -/
structure StateChannel where
  name : String
  assignedNode : Int
  currentState : ChannelState
  opID : Int
deriving Repr, DecidableEq

/-- The states a `CheckChannelOperationProgress` poll can report. -/
inductive CheckResult where
  | watchSuccess
  | watchFailure
  | inProgress
  | releaseSuccess
  | releaseFailure
  | nodeNotFound
deriving Repr, DecidableEq

/-- Modelled from the spec: `Release(node, channel)` moves a channel into
ToRelease; the transition leaves Watching/Watched, so a fresh monotonic op-id
(`freshOpID`, allocated by the global id allocator) is stored so that a late
reply from a prior RPC can be rejected by comparing op-ids. -/
def releaseChannel (c : StateChannel) (freshOpID : Int) : StateChannel :=
  { c with currentState := .toRelease, opID := freshOpID }

/-- Modelled from the spec: the ToWatch step of `AdvanceChannelState` issues
`NotifyChannelOperation`; on success the channel advances to Watching, on any
error it falls back to Standby. -/
def advanceToWatch (c : StateChannel) (notifyResult : Except String Unit) : StateChannel :=
  if c.currentState = .toWatch then
    match notifyResult with
    | .ok _ => { c with currentState := .watching }
    | .error _ => { c with currentState := .standby }
  else c

/-- Modelled from the spec: the Watching step of `AdvanceChannelState`
processes a `CheckChannelOperationProgress` reply carrying the op-id of the
probe; a reply whose op-id no longer matches the stored one — or arriving
when the channel has already left Watching — is ignored; otherwise
WatchSuccess advances to Watched and WatchFailure or a missing node falls
back to Standby. -/
def handleWatchCheck (c : StateChannel) (probeOpID : Int) (res : CheckResult) : StateChannel :=
  if c.currentState = .watching ∧ probeOpID = c.opID then
    match res with
    | .watchSuccess => { c with currentState := .watched }
    | .watchFailure => { c with currentState := .standby }
    | .nodeNotFound => { c with currentState := .standby }
    | _ => c
  else c

/-- Claim C2: if `Release` arrives while a Watching probe is in flight, the
probe later reporting WatchSuccess leaves the channel in ToRelease — not
Watched — and the stored watch info carries the fresh op-id allocated by the
release, not the op-id of the in-flight watch operation. -/
theorem release_during_watch_check (c : StateChannel) (freshOpID : Int)
    (_hw : c.currentState = .watching) (_hfresh : freshOpID ≠ c.opID) :
    handleWatchCheck (releaseChannel c freshOpID) c.opID .watchSuccess =
        releaseChannel c freshOpID ∧
      (releaseChannel c freshOpID).currentState = .toRelease ∧
      (releaseChannel c freshOpID).opID = freshOpID := by
  refine ⟨?_, rfl, rfl⟩
  rw [handleWatchCheck, if_neg]
  rintro ⟨hstate, -⟩
  exact ChannelState.noConfusion hstate

/-- Channel ch1 mid-watch with op-id 19530, as in the released-during-check
test scenario. -/
def exampleWatchingChannel : StateChannel :=
  { name := "ch1", assignedNode := 1, currentState := .watching, opID := 19530 }

theorem release_during_watch_check_witness :
    handleWatchCheck (releaseChannel exampleWatchingChannel 19531) 19530 .watchSuccess =
        releaseChannel exampleWatchingChannel 19531 ∧
      (releaseChannel exampleWatchingChannel 19531).currentState = .toRelease ∧
      (releaseChannel exampleWatchingChannel 19531).opID = 19531 :=
  release_during_watch_check exampleWatchingChannel 19531 rfl (by decide)

/-- Claim C6: for a channel in ToWatch, a failing `NotifyChannelOperation`
(any error) leaves the channel in Standby after the tick. -/
theorem advanceToWatch_notify_fail (c : StateChannel) (msg : String)
    (h : c.currentState = .toWatch) :
    (advanceToWatch c (.error msg)).currentState = .standby := by
  rw [advanceToWatch, if_pos h]

theorem advanceToWatch_notify_fail_witness :
    (advanceToWatch
        { name := "ch1", assignedNode := 1, currentState := .toWatch, opID := 1 }
        (.error "mock error")).currentState = .standby :=
  advanceToWatch_notify_fail
    { name := "ch1", assignedNode := 1, currentState := .toWatch, opID := 1 }
    "mock error" rfl

/-! ## Quota center

The `QuotaCenter` implementation is not in this snapshot — only its test file
is — so `forceDenyWriting`, `checkDiskQuota` and `getTimeTickDelayFactor` are
modelled from the specification (§4.4) and constrained by the expectations of
the `disk quota exhausted`, `test checkDiskQuota` and
`test getTimeTickDelayFactor factors` tests.  Rates are rationals. -/

/-- Deny-state error codes used by the quota center. -/
inductive QuotaErrorCode where
  | forceDeny
  | diskQuotaExhausted
  | memoryQuotaExhausted
deriving Repr, DecidableEq

/-- One rate-limiter tree node: the DML write limits plus the DenyToWrite
quota state. -/
structure LimiterNode where
  insertRate : ℚ
  upsertRate : ℚ
  deleteRate : ℚ
  bulkLoadRate : ℚ
  denyWrite : Option QuotaErrorCode
deriving Repr, DecidableEq

/-- The rate-limiter tree, one node per scope: cluster root, database,
collection (keyed db × collection) and partition (keyed db × collection ×
partition). -/
structure RateTree where
  root : LimiterNode
  db : Int → LimiterNode
  coll : Int × Int → LimiterNode
  part : Int × Int × Int → LimiterNode

/-- Modelled from the spec: denying writes at a node sets the DenyToWrite
state; for `DiskQuotaExhausted` only insert and upsert are zeroed (deletes
relieve disk pressure), any other code zeroes all four DML rates. -/
def denyWritingNode (code : QuotaErrorCode) (n : LimiterNode) : LimiterNode :=
  if code = .diskQuotaExhausted then
    { n with insertRate := 0, upsertRate := 0, denyWrite := some code }
  else
    { n with insertRate := 0, upsertRate := 0, deleteRate := 0, bulkLoadRate := 0,
             denyWrite := some code }

/-- Modelled from the spec: `forceDenyWriting(code, cluster, dbs, collections,
partitions)` applies `denyWritingNode` to the root (when `cluster`) and to
every listed database, collection and partition node, leaving every other
node untouched. -/
def forceDenyWriting (code : QuotaErrorCode) (cluster : Bool) (dbs : List Int)
    (colls : List (Int × Int)) (parts : List (Int × Int × Int)) (t : RateTree) : RateTree :=
  { root := if cluster then denyWritingNode code t.root else t.root
    db := fun i => if i ∈ dbs then denyWritingNode code (t.db i) else t.db i
    coll := fun k => if k ∈ colls then denyWritingNode code (t.coll k) else t.coll k
    part := fun k => if k ∈ parts then denyWritingNode code (t.part k) else t.part k }

/-- Disk-quota configuration; `none` disables the bound at that level. -/
structure DiskQuotaConfig where
  diskProtectionEnabled : Bool
  diskQuota : Option ℚ
  diskQuotaPerDB : Option ℚ
  diskQuotaPerCollection : Option ℚ
  diskQuotaPerPartition : Option ℚ
deriving Repr, DecidableEq

/-- The binlog sizes collected from the data coordinator. -/
structure DiskMetrics where
  totalBinlogSize : ℚ
  dbBinlogSizes : List (Int × ℚ)
  collectionBinlogSizes : List ((Int × Int) × ℚ)
  partitionBinlogSizes : List ((Int × Int × Int) × ℚ)
deriving Repr, DecidableEq

/-- A level is exceeded when a quota is configured and the size reaches it
(the per-collection test denies a 30 MiB collection under a 30 MiB quota). -/
def quotaExceeded (quota : Option ℚ) (size : ℚ) : Bool :=
  match quota with
  | none => false
  | some q => q ≤ size

/-- Databases whose binlog size exceeds the per-database quota. -/
def dbsExceeded (cfg : DiskQuotaConfig) (ms : DiskMetrics) : List Int :=
  (ms.dbBinlogSizes.filter (fun p => quotaExceeded cfg.diskQuotaPerDB p.2)).map
    (fun p => p.1)

/-- Collections whose binlog size exceeds the per-collection quota. -/
def collsExceeded (cfg : DiskQuotaConfig) (ms : DiskMetrics) : List (Int × Int) :=
  (ms.collectionBinlogSizes.filter
    (fun p => quotaExceeded cfg.diskQuotaPerCollection p.2)).map (fun p => p.1)

/-- Partitions whose binlog size exceeds the per-partition quota. -/
def partsExceeded (cfg : DiskQuotaConfig) (ms : DiskMetrics) : List (Int × Int × Int) :=
  (ms.partitionBinlogSizes.filter
    (fun p => quotaExceeded cfg.diskQuotaPerPartition p.2)).map (fun p => p.1)

/-- Modelled from the spec: `checkDiskQuota` does nothing when disk
protection is disabled; otherwise it denies the cluster root when the total
binlog size exceeds the total quota, and denies every database, collection
and partition whose size exceeds its per-scope quota, always with code
`DiskQuotaExhausted`. -/
def checkDiskQuota (cfg : DiskQuotaConfig) (ms : DiskMetrics) (t : RateTree) : RateTree :=
  if ¬ cfg.diskProtectionEnabled then t
  else
    let t1 := if quotaExceeded cfg.diskQuota ms.totalBinlogSize then
        forceDenyWriting .diskQuotaExhausted true [] [] [] t
      else t
    forceDenyWriting .diskQuotaExhausted false (dbsExceeded cfg ms)
      (collsExceeded cfg ms) (partsExceeded cfg ms) t1

/-- Configured per-collection DML maxima, used by `resetAllCurrentRates`. -/
structure DMLRateConfig where
  insertMax : ℚ
  upsertMax : ℚ
  deleteMax : ℚ
  bulkLoadMax : ℚ
deriving Repr, DecidableEq

/-- A limiter node holding the configured maxima with no deny state. -/
def resetNode (c : DMLRateConfig) : LimiterNode :=
  { insertRate := c.insertMax, upsertRate := c.upsertMax, deleteRate := c.deleteMax,
    bulkLoadRate := c.bulkLoadMax, denyWrite := none }

/-- `resetAllCurrentRates`: every scope starts each tick from the configured
maxima (per-collection overrides are not modelled; one config stands for all
scopes). -/
def resetTree (c : DMLRateConfig) : RateTree :=
  { root := resetNode c, db := fun _ => resetNode c, coll := fun _ => resetNode c,
    part := fun _ => resetNode c }

/-- DiskQuotaPerCollection = 30 MiB, every other level unbounded. -/
def exampleDiskCfg : DiskQuotaConfig :=
  { diskProtectionEnabled := true, diskQuota := none, diskQuotaPerDB := none,
    diskQuotaPerCollection := some 30, diskQuotaPerPartition := none }

/-- Collection binlog sizes 1 ↦ 20 MiB, 2 ↦ 30 MiB, 3 ↦ 60 MiB (db 0). -/
def exampleDiskMetrics : DiskMetrics :=
  { totalBinlogSize := 110, dbBinlogSizes := [],
    collectionBinlogSizes := [((0, 1), 20), ((0, 2), 30), ((0, 3), 60)],
    partitionBinlogSizes := [] }

/-- Positive configured DML maxima for the reset tree. -/
def exampleDMLConfig : DMLRateConfig :=
  { insertMax := 100, upsertMax := 100, deleteMax := 100, bulkLoadMax := 100 }

/-- Claim C4: for every scope whose disk quota is exceeded, `checkDiskQuota`
zeroes the insert and upsert limits at that scope and raises DenyToWrite with
code DiskQuotaExhausted, leaving the delete and bulk-load limits at that
scope unchanged (hence non-zero when they start from the positive configured
maxima) and leaving non-exceeded scopes untouched; with
DiskQuotaPerCollection = 30 MiB and sizes {1: 20, 2: 30, 3: 60} MiB,
collection 1 keeps positive insert/upsert/delete limits while collections 2
and 3 end with insert = upsert = 0 and delete > 0. -/
theorem checkDiskQuota_denies_exceeded_scopes :
    (∀ (cfg : DiskQuotaConfig) (ms : DiskMetrics) (t : RateTree),
      cfg.diskProtectionEnabled = true →
        (quotaExceeded cfg.diskQuota ms.totalBinlogSize = true →
          (checkDiskQuota cfg ms t).root.insertRate = 0 ∧
          (checkDiskQuota cfg ms t).root.upsertRate = 0 ∧
          (checkDiskQuota cfg ms t).root.denyWrite = some .diskQuotaExhausted ∧
          (checkDiskQuota cfg ms t).root.deleteRate = t.root.deleteRate ∧
          (checkDiskQuota cfg ms t).root.bulkLoadRate = t.root.bulkLoadRate) ∧
        (∀ k ∈ dbsExceeded cfg ms,
          ((checkDiskQuota cfg ms t).db k).insertRate = 0 ∧
          ((checkDiskQuota cfg ms t).db k).upsertRate = 0 ∧
          ((checkDiskQuota cfg ms t).db k).denyWrite = some .diskQuotaExhausted ∧
          ((checkDiskQuota cfg ms t).db k).deleteRate = (t.db k).deleteRate ∧
          ((checkDiskQuota cfg ms t).db k).bulkLoadRate = (t.db k).bulkLoadRate) ∧
        (∀ k ∈ collsExceeded cfg ms,
          ((checkDiskQuota cfg ms t).coll k).insertRate = 0 ∧
          ((checkDiskQuota cfg ms t).coll k).upsertRate = 0 ∧
          ((checkDiskQuota cfg ms t).coll k).denyWrite = some .diskQuotaExhausted ∧
          ((checkDiskQuota cfg ms t).coll k).deleteRate = (t.coll k).deleteRate ∧
          ((checkDiskQuota cfg ms t).coll k).bulkLoadRate = (t.coll k).bulkLoadRate) ∧
        (∀ k ∈ partsExceeded cfg ms,
          ((checkDiskQuota cfg ms t).part k).insertRate = 0 ∧
          ((checkDiskQuota cfg ms t).part k).upsertRate = 0 ∧
          ((checkDiskQuota cfg ms t).part k).denyWrite = some .diskQuotaExhausted ∧
          ((checkDiskQuota cfg ms t).part k).deleteRate = (t.part k).deleteRate ∧
          ((checkDiskQuota cfg ms t).part k).bulkLoadRate = (t.part k).bulkLoadRate) ∧
        (quotaExceeded cfg.diskQuota ms.totalBinlogSize = false →
          (checkDiskQuota cfg ms t).root = t.root) ∧
        (∀ k, k ∉ dbsExceeded cfg ms → (checkDiskQuota cfg ms t).db k = t.db k) ∧
        (∀ k, k ∉ collsExceeded cfg ms → (checkDiskQuota cfg ms t).coll k = t.coll k) ∧
        (∀ k, k ∉ partsExceeded cfg ms → (checkDiskQuota cfg ms t).part k = t.part k)) ∧
      (((checkDiskQuota exampleDiskCfg exampleDiskMetrics
          (resetTree exampleDMLConfig)).coll (0, 1)).insertRate > 0 ∧
        ((checkDiskQuota exampleDiskCfg exampleDiskMetrics
          (resetTree exampleDMLConfig)).coll (0, 1)).upsertRate > 0 ∧
        ((checkDiskQuota exampleDiskCfg exampleDiskMetrics
          (resetTree exampleDMLConfig)).coll (0, 1)).deleteRate > 0 ∧
        ((checkDiskQuota exampleDiskCfg exampleDiskMetrics
          (resetTree exampleDMLConfig)).coll (0, 2)).insertRate = 0 ∧
        ((checkDiskQuota exampleDiskCfg exampleDiskMetrics
          (resetTree exampleDMLConfig)).coll (0, 2)).upsertRate = 0 ∧
        ((checkDiskQuota exampleDiskCfg exampleDiskMetrics
          (resetTree exampleDMLConfig)).coll (0, 2)).deleteRate > 0 ∧
        ((checkDiskQuota exampleDiskCfg exampleDiskMetrics
          (resetTree exampleDMLConfig)).coll (0, 2)).denyWrite =
            some .diskQuotaExhausted ∧
        ((checkDiskQuota exampleDiskCfg exampleDiskMetrics
          (resetTree exampleDMLConfig)).coll (0, 3)).insertRate = 0 ∧
        ((checkDiskQuota exampleDiskCfg exampleDiskMetrics
          (resetTree exampleDMLConfig)).coll (0, 3)).upsertRate = 0 ∧
        ((checkDiskQuota exampleDiskCfg exampleDiskMetrics
          (resetTree exampleDMLConfig)).coll (0, 3)).deleteRate > 0 ∧
        ((checkDiskQuota exampleDiskCfg exampleDiskMetrics
          (resetTree exampleDMLConfig)).coll (0, 3)).denyWrite =
            some .diskQuotaExhausted) := by
  constructor
  · intro cfg ms t hen
    have hnn : ¬ ¬ cfg.diskProtectionEnabled := by simp [hen]
    refine ⟨?_, ?_, ?_, ?_, ?_, ?_, ?_, ?_⟩
    · intro hex
      simp [checkDiskQuota, hnn, hex, forceDenyWriting, denyWritingNode]
    · intro k hk
      by_cases hex : quotaExceeded cfg.diskQuota ms.totalBinlogSize <;>
        simp [checkDiskQuota, hnn, hex, forceDenyWriting, denyWritingNode, hk]
    · intro k hk
      by_cases hex : quotaExceeded cfg.diskQuota ms.totalBinlogSize <;>
        simp [checkDiskQuota, hnn, hex, forceDenyWriting, denyWritingNode, hk]
    · intro k hk
      by_cases hex : quotaExceeded cfg.diskQuota ms.totalBinlogSize <;>
        simp [checkDiskQuota, hnn, hex, forceDenyWriting, denyWritingNode, hk]
    · intro hex
      simp [checkDiskQuota, hnn, hex, forceDenyWriting]
    · intro k hk
      by_cases hex : quotaExceeded cfg.diskQuota ms.totalBinlogSize <;>
        simp [checkDiskQuota, hnn, hex, forceDenyWriting, hk]
    · intro k hk
      by_cases hex : quotaExceeded cfg.diskQuota ms.totalBinlogSize <;>
        simp [checkDiskQuota, hnn, hex, forceDenyWriting, hk]
    · intro k hk
      by_cases hex : quotaExceeded cfg.diskQuota ms.totalBinlogSize <;>
        simp [checkDiskQuota, hnn, hex, forceDenyWriting, hk]
  · decide

theorem checkDiskQuota_denies_exceeded_scopes_witness :
    ((checkDiskQuota exampleDiskCfg exampleDiskMetrics
        (resetTree exampleDMLConfig)).coll (0, 2)).insertRate = 0 ∧
      ((checkDiskQuota exampleDiskCfg exampleDiskMetrics
        (resetTree exampleDMLConfig)).coll (0, 2)).deleteRate =
        ((resetTree exampleDMLConfig).coll (0, 2)).deleteRate := by
  have h := checkDiskQuota_denies_exceeded_scopes
  have h2 := (h.1 exampleDiskCfg exampleDiskMetrics (resetTree exampleDMLConfig) rfl).2.2.1
    (0, 2) (by decide)
  exact ⟨h2.1, h2.2.2.2.1⟩

/-- Modelled from the spec: the per-collection time-tick delay factor.  With
δ = tsoNow − minFlowGraphTt (the collection's minimum flow-graph time-tick),
the factor is 1 when δ ≤ 0, 0 when δ ≥ MaxTimeTickDelay, and
(MaxTimeTickDelay − δ) / MaxTimeTickDelay in between.  Times are in
seconds. -/
def getTimeTickDelayFactor (maxDelay tsoNow minFlowGraphTt : ℚ) : ℚ :=
  if tsoNow - minFlowGraphTt ≤ 0 then 1
  else if maxDelay ≤ tsoNow - minFlowGraphTt then 0
  else (maxDelay - (tsoNow - minFlowGraphTt)) / maxDelay

/-- Claim C5: the time-tick delay factor is piecewise linear in the delay
δ = tsoNow − minFlowGraphTt: it is 1 for δ ≤ 0, 0 for δ ≥ MaxTimeTickDelay,
and 1 − δ / MaxTimeTickDelay in between; with MaxTimeTickDelay = 10 s the
delays {0, 1, 2, 5, 7, 9, 10, 100} s give exactly the factors
{1, 0.9, 0.8, 0.5, 0.3, 0.1, 0, 0}, hence within ±0.01 of them. -/
theorem getTimeTickDelayFactor_piecewise :
    (∀ maxDelay tsoNow minFlowGraphTt : ℚ, 0 < maxDelay →
      (tsoNow - minFlowGraphTt ≤ 0 →
        getTimeTickDelayFactor maxDelay tsoNow minFlowGraphTt = 1) ∧
      (maxDelay ≤ tsoNow - minFlowGraphTt →
        getTimeTickDelayFactor maxDelay tsoNow minFlowGraphTt = 0) ∧
      (0 < tsoNow - minFlowGraphTt → tsoNow - minFlowGraphTt < maxDelay →
        getTimeTickDelayFactor maxDelay tsoNow minFlowGraphTt =
          1 - (tsoNow - minFlowGraphTt) / maxDelay)) ∧
      (([0, 1, 2, 5, 7, 9, 10, 100] : List ℚ).map
          (fun d => getTimeTickDelayFactor 10 d 0) =
        [1, 9/10, 8/10, 5/10, 3/10, 1/10, 0, 0]) ∧
      (List.zipWith (fun a b => |a - b|)
          (([0, 1, 2, 5, 7, 9, 10, 100] : List ℚ).map
            (fun d => getTimeTickDelayFactor 10 d 0))
          [1, 9/10, 8/10, 5/10, 3/10, 1/10, 0, 0]).all (fun e => e < 1/100) := by
  refine ⟨?_, ?_, ?_⟩
  · intro maxDelay tsoNow minFlowGraphTt hmax
    refine ⟨?_, ?_, ?_⟩
    · intro h
      rw [getTimeTickDelayFactor, if_pos h]
    · intro h
      rw [getTimeTickDelayFactor, if_neg (by linarith), if_pos h]
    · intro h1 h2
      rw [getTimeTickDelayFactor, if_neg (by linarith), if_neg (by linarith)]
      field_simp
  · norm_num [getTimeTickDelayFactor]
  · norm_num [getTimeTickDelayFactor, List.zipWith, List.all]

theorem getTimeTickDelayFactor_piecewise_witness :
    getTimeTickDelayFactor 10 7 0 = 1 - (7 - 0) / 10 := by
  have h := getTimeTickDelayFactor_piecewise
  exact (h.1 10 7 0 (by norm_num)).2.2 (by norm_num) (by norm_num)

end MilvusCoord
